import Mathlib

/-!
Verification of the getgo version manager core.

The definitions below are a shallow embedding of the Go sources:
the catalog filtering and version resolution of the main command file,
the current-pointer (symlink) state machine over `<home>/sdk`, and the
profile-file appending logic of `path.go`.  Filesystem state is passed
explicitly; fallible operations return `Except`.
-/

deriving instance DecidableEq for Except

namespace Getgo

/-- Embeds `strings.ToLower` for the ASCII specifiers the tool handles. -/
def strToLower (s : String) : String :=
  String.mk (s.data.map Char.toLower)

/-- Embeds `strings.ToUpper` for the ASCII variable names the tool handles. -/
def strToUpper (s : String) : String :=
  String.mk (s.data.map Char.toUpper)

/-- Embeds `strings.Contains(s, sub)` (substring test). -/
def strContains (s sub : String) : Bool :=
  decide (sub.data <:+: s.data)

/-- Embeds `strings.HasPrefix(version, "go")`, the only prefix test the
main command file performs on version specifiers. -/
def isGoPrefixed (s : String) : Bool :=
  "go".data.isPrefixOf s.data

/-- Embeds the specifier-normalization snippet that appears verbatim in both
`removeCmd` (lines 211-213) and `installCmd` (lines 264-266):
`if !strings.HasPrefix(version, "go") { version = "go" + version }`. -/
def normalizeVersion (v : String) : String :=
  if isGoPrefixed v then v else "go" ++ v

/-- Embeds the `Version` JSON struct (one archive entry of a release). -/
structure Version where
  filename : String
  os : String
  arch : String
  version : String
  sha256 : String
  size : Nat
  kind : String
  deriving DecidableEq, Repr

/-- Embeds the `Release` JSON struct (`files` field named `versions`,
as in the source). -/
structure Release where
  version : String
  stable : Bool
  versions : List Version
  deriving DecidableEq, Repr

/-- Embeds `isValidArchive` (lines 395-406): the host os/arch match
(with the linux `arm` to `armv6l` substitution), `kind == "archive"`,
and a non-empty sha256.  The host platform (`runtime.GOOS`/`runtime.GOARCH`)
is passed as the two string parameters. -/
def isValidArchive (goos goarch : String) (v : Version) : Bool :=
  let goarch := if goos == "linux" && goarch == "arm" then "armv6l" else goarch
  v.os == goos && v.arch == goarch && v.kind == "archive" && !(v.sha256 == "")

/-- Embeds the pure core of `listVersions` (lines 319-326): the nested loop
over releases and their files appending every file of a stable release that
passes `isValidArchive`, preserving the catalog's order.  The network fetch
and JSON decoding that precede this loop are kept outside the embedding: the
catalog snapshot is the `releases` parameter. -/
def listVersionsPure (goos goarch : String) (releases : List Release) : List Version :=
  releases.foldl
    (fun acc r =>
      r.versions.foldl
        (fun acc2 v =>
          if r.stable && isValidArchive goos goarch v then acc2 ++ [v] else acc2)
        acc)
    []

/-- Embeds the version-resolution core of `installCmd` (lines 248-266):
lowercase the argument, map `up|latest|update` to `versions[0].Version` of
the filtered catalog (`none` models the out-of-range panic on an empty
filtered catalog), leave anything else as an explicit specifier, and finally
apply the `go`-prefix normalization. -/
def resolveSpec (goos goarch : String) (releases : List Release) (arg : String) :
    Option String :=
  let version := strToLower arg
  let resolved : Option String :=
    if version == "up" || version == "latest" || version == "update" then
      ((listVersionsPure goos goarch releases).get? 0).map Version.version
    else
      some version
  resolved.map normalizeVersion

/-- Embeds the version selection of `bootstrap` (lines 376-393):
`versions[0].Version` on the filtered catalog, with `none` modelling the
out-of-range panic when the filtered catalog is empty. -/
def bootstrapVersion (goos goarch : String) (releases : List Release) : Option String :=
  ((listVersionsPure goos goarch releases).get? 0).map Version.version

/-! ## The `<home>/sdk` directory and the current-pointer symlink

The main command file touches the filesystem only inside `<home>/sdk`:
version install directories (`<home>/sdk/go1.15`, ...) and the current
pointer, a symlink at `<home>/sdk/go`.  The state is the list of entries
directly under `<home>/sdk`, keyed by entry name.  Install directories are
modelled as (non-empty) directories, on which `os.Remove` fails as on POSIX;
`os.UserHomeDir` is modelled as the explicit `home` parameter and never
fails. -/

/-- A directory entry under `<home>/sdk`: a version install directory or a
symlink with its target path. -/
inductive Entry where
  | dir : Entry
  | symlink : String → Entry
  deriving DecidableEq, Repr

/-- The contents of `<home>/sdk`, keyed by entry name. -/
abbrev Sdk := List (String × Entry)

/-- Errors of the modelled `os` filesystem calls. -/
inductive OsErr where
  /-- `os.IsNotExist` holds of the error. -/
  | notExist : OsErr
  /-- tried to create a path that already exists (`os.Symlink`). -/
  | exist : OsErr
  /-- `os.Remove` on a non-empty directory. -/
  | notEmpty : OsErr
  /-- `os.Readlink` on an entry that is not a symlink. -/
  | invalidLink : OsErr
  deriving DecidableEq, Repr

/-- Entry stored under a name, if any. -/
def lookupEntry : Sdk → String → Option Entry
  | [], _ => none
  | e :: s, name => if e.1 = name then some e.2 else lookupEntry s name

/-- Drop every entry stored under a name. -/
def eraseEntry : Sdk → String → Sdk
  | [], _ => []
  | e :: s, name => if e.1 = name then eraseEntry s name else e :: eraseEntry s name

/-- Embeds `os.Remove` on a path under `<home>/sdk`: fails with a
not-exist error on a missing entry, fails on a (non-empty) directory,
unlinks a symlink. -/
def osRemove (name : String) (s : Sdk) : Except OsErr Sdk :=
  match lookupEntry s name with
  | none => .error .notExist
  | some .dir => .error .notEmpty
  | some (.symlink _) => .ok (eraseEntry s name)

/-- Embeds `os.Symlink(target, linkpath)` for a link path under
`<home>/sdk`: fails if the link path already exists. -/
def osSymlink (target name : String) (s : Sdk) : Except OsErr Sdk :=
  match lookupEntry s name with
  | some _ => .error .exist
  | none => .ok ((name, Entry.symlink target) :: s)

/-- Embeds `os.Readlink` on a path under `<home>/sdk`. -/
def osReadlink (name : String) (s : Sdk) : Except OsErr String :=
  match lookupEntry s name with
  | none => .error .notExist
  | some .dir => .error .invalidLink
  | some (.symlink t) => .ok t

/-- Embeds `os.RemoveAll` on a path under `<home>/sdk`: removes the entry
(a directory with its contents, or a symlink without following it) and
succeeds even when the path does not exist. -/
def osRemoveAll (name : String) (s : Sdk) : Sdk :=
  eraseEntry s name

/-- Embeds `versionRoot` (lines 105-111): `filepath.Join(home, "sdk", version)`,
with `os.UserHomeDir` the explicit `home` parameter. -/
def versionRoot (home version : String) : String :=
  home ++ "/sdk/" ++ version

/-- Embeds `setDefaultVersion` (lines 331-348): compute the version's install
directory and the pointer path, `os.Remove` the pointer path discarding any
error (`_ = os.Remove(defaultGoRoot)`), then `os.Symlink` the install
directory at the pointer path, surfacing exactly the symlink error. -/
def setDefaultVersion (home version : String) (s : Sdk) : Except OsErr Sdk :=
  let goroot := versionRoot home version
  let s1 := match osRemove "go" s with
    | .ok s2 => s2
    | .error _ => s
  osSymlink goroot "go" s1

/-- Embeds `isDefault` (lines 408-430): read the pointer symlink, treat a
not-exist error as `false`, surface any other error (`log.Fatal`), and
otherwise compare the target with the candidate's install directory. -/
def isDefault (home version : String) (s : Sdk) : Except OsErr Bool :=
  let goroot := versionRoot home version
  match osReadlink "go" s with
  | .error .notExist => .ok false
  | .error e => .error e
  | .ok t => .ok (goroot == t)

/-- Fatal outcomes of `removeCmd`. -/
inductive CmdErr where
  /-- the `log.Fatalf("%s: can't remove default version", ...)` guard. -/
  | guardErr : String → CmdErr
  /-- a fatal filesystem error (`log.Fatal`). -/
  | fatal : OsErr → CmdErr
  deriving DecidableEq, Repr

/-- Embeds `removeCmd` (lines 205-230): normalize the argument with the
`go`-prefix rule, refuse with the guard message when `isDefault` holds,
otherwise `os.RemoveAll` the version's install directory and report
`"<version>: removed"`.  (The report is printed through `log.Fatalf`, which
exits after printing; the success value carries the resulting state and the
printed message.) -/
def removeCmd (home arg : String) (s : Sdk) : Except CmdErr (Sdk × String) :=
  let version := normalizeVersion arg
  match isDefault home version s with
  | .error e => .error (.fatal e)
  | .ok true => .error (.guardErr (version ++ ": can't remove default version"))
  | .ok false => .ok (osRemoveAll version s, version ++ ": removed")

/-! ## Profile files (`path.go`)

`path.go` reads and writes whole profile files by name.  The store is an
association list from filename to file contents (a list of characters);
a filename absent from the store is a file that does not exist.
The platform constant `lineEnding` (defined in a platform file outside
`src/`) is modelled as the POSIX `"\n"`. -/

/-- Store of profile files: filename to contents; absent means the file
does not exist. -/
abbrev FileStore := List (String × List Char)

/-- Contents of a file, if it exists. -/
def readFile : FileStore → String → Option (List Char)
  | [], _ => none
  | e :: fs, p => if e.1 = p then some e.2 else readFile fs p

/-- Overwrite (or create) a file with the given contents. -/
def setFile (fs : FileStore) (p : String) (c : List Char) : FileStore :=
  (p, c) :: fs

/-- Embeds `dropCR` of `bufio.ScanLines`: strip one trailing `'\r'`. -/
def dropCR (l : List Char) : List Char :=
  match l.getLast? with
  | some c => if c = '\r' then l.dropLast else l
  | none => l

/-- Embeds the token stream of `bufio.Scanner` with `bufio.ScanLines`:
split on `'\n'`, strip one trailing `'\r'` from each token, and return a
final token only when non-empty data remains after the last newline.
The first argument accumulates the current token in reverse. -/
def scanLines : List Char → List Char → List (List Char)
  | acc, [] => if acc.isEmpty then [] else [dropCR acc.reverse]
  | acc, c :: rest =>
    if c = '\n' then dropCR acc.reverse :: scanLines [] rest
    else scanLines (c :: acc) rest

/-- Embeds `checkStringExistsFile` (lines 136-155): a missing file yields
`false` (not an error); otherwise scan the file line by line and compare
each line with the value. -/
def checkStringExistsFile (fs : FileStore) (filename value : String) : Bool :=
  match readFile fs filename with
  | none => false
  | some content => (scanLines [] content).contains value.data

/-- Embeds `appendToFile` (lines 157-177): if `checkStringExistsFile`
already finds the value, do nothing; otherwise open with `O_APPEND|O_CREATE`
(a missing file starts empty) and write `lineEnding + value + lineEnding`. -/
def appendToFile (fs : FileStore) (filename value : String) : FileStore :=
  if checkStringExistsFile fs filename value then fs
  else
    setFile fs filename
      ((readFile fs filename).getD [] ++ '\n' :: (value.data ++ ['\n']))

/-- Number of lines of a file equal to the given value. -/
def countLineOcc (fs : FileStore) (filename value : String) : Nat :=
  match readFile fs filename with
  | none => 0
  | some content => (scanLines [] content).count value.data

/-- Embeds `isShell` (lines 179-181): `strings.Contains(currentShell(), name)`.
`currentShell` is defined in a platform file outside `src/`; its result is
the explicit `shell` parameter. -/
def isShell (shell name : String) : Bool :=
  strContains shell name

/-- The `bashConfig` constant (line 23). -/
def bashConfig : String := ".bash_profile"

/-- The `zshConfig` constant (line 24). -/
def zshConfig : String := ".zshrc"

/-- Embeds `shellConfigFile` (lines 216-230): `~/.bash_profile` for a shell
name containing `bash`, else `~/.zshrc` for one containing `zsh`, else the
unsupported-shell error.  `filepath.Join` of two components is modelled as
concatenation with the POSIX separator. -/
def shellConfigFile (shell home : String) : Except String String :=
  if isShell shell "bash" then .ok (home ++ "/" ++ bashConfig)
  else if isShell shell "zsh" then .ok (home ++ "/" ++ zshConfig)
  else .error ("\"" ++ shell ++ "\" is not a supported shell")

/-- Embeds `persistEnvVar` (lines 190-214) for a non-Windows `runtime.GOOS`,
where the Windows-registry block is skipped: resolve the shell profile file
(propagating the unsupported-shell error), append the
`export NAME=VALUE` line to it, and finish with `os.Setenv` (modelled as
always succeeding, the process environment being outside the state). -/
def persistEnvVar (shell home name value : String) (fs : FileStore) :
    Except String FileStore :=
  match shellConfigFile shell home with
  | .error e => .error e
  | .ok rc =>
    .ok (appendToFile fs rc ("export " ++ strToUpper name ++ "=" ++ value))

/-! ## Lemmas about the `<home>/sdk` state -/

theorem lookupEntry_erase (s : Sdk) (k n : String) :
    lookupEntry (eraseEntry s k) n = if n = k then none else lookupEntry s n := by
  induction s with
  | nil => simp [lookupEntry, eraseEntry]
  | cons a s ih =>
    by_cases hnk : n = k
    · subst hnk
      simp only [if_pos rfl] at ih ⊢
      by_cases han : a.1 = n
      · simpa [eraseEntry, han] using ih
      · simpa [eraseEntry, lookupEntry, han] using ih
    · simp only [if_neg hnk] at ih ⊢
      by_cases hak : a.1 = k
      · have han : ¬ a.1 = n := fun h => hnk (h.symm.trans hak)
        have hkn : ¬ k = n := fun h => hnk h.symm
        simp [eraseEntry, lookupEntry, hak, han, hkn, ih]
      · simp [eraseEntry, lookupEntry, hak, ih]

theorem eraseEntry_of_lookup_none (s : Sdk) (n : String) (h : lookupEntry s n = none) :
    eraseEntry s n = s := by
  induction s with
  | nil => rfl
  | cons a s ih =>
    simp only [lookupEntry] at h
    by_cases han : a.1 = n
    · simp [han] at h
    · simp only [if_neg han] at h
      simp [eraseEntry, if_neg han, ih h]

theorem versionRoot_inj (home a b : String) (h : versionRoot home a = versionRoot home b) :
    a = b := by
  unfold versionRoot at h
  have hd := congrArg String.data h
  simp only [String.data_append] at hd
  have h2 := List.append_cancel_left hd
  cases a; cases b
  exact congrArg String.mk h2

/-- Case analysis of `setDefaultVersion`: replacing the pointer succeeds
with a fresh symlink prepended, unless the pointer path is occupied by a
real directory, which the error-discarding `os.Remove` cannot clear and on
which `os.Symlink` then fails. -/
theorem setDefaultVersion_cases (home v : String) (s : Sdk) :
    (lookupEntry s "go" = some Entry.dir ∧
      setDefaultVersion home v s = .error .exist) ∨
    (lookupEntry s "go" ≠ some Entry.dir ∧
      setDefaultVersion home v s =
        .ok (("go", Entry.symlink (versionRoot home v)) :: eraseEntry s "go")) := by
  cases hl : lookupEntry s "go" with
  | none =>
    refine Or.inr ⟨by simp [hl], ?_⟩
    simp only [setDefaultVersion, osRemove, osSymlink, hl]
    rw [eraseEntry_of_lookup_none s "go" hl]
  | some e =>
    cases e with
    | dir =>
      exact Or.inl ⟨rfl, by simp only [setDefaultVersion, osRemove, osSymlink, hl]⟩
    | symlink t =>
      refine Or.inr ⟨by simp [hl], ?_⟩
      simp only [setDefaultVersion, osRemove, osSymlink, hl, lookupEntry_erase]
      simp

theorem osReadlink_cons_go (g : String) (s : Sdk) :
    osReadlink "go" (("go", Entry.symlink g) :: s) = .ok g := by
  simp [osReadlink, lookupEntry]

theorem isDefault_of_readlink (home w : String) (s : Sdk) (t : String)
    (hr : osReadlink "go" s = .ok t) :
    isDefault home w s = .ok (versionRoot home w == t) := by
  unfold isDefault
  rw [hr]

theorem isDefault_true_elim (home w : String) (s : Sdk)
    (h : isDefault home w s = .ok true) :
    ∃ t, osReadlink "go" s = .ok t ∧ versionRoot home w = t := by
  unfold isDefault at h
  cases hr : osReadlink "go" s with
  | ok t =>
    rw [hr] at h
    simp only [Except.ok.injEq] at h
    exact ⟨t, rfl, by simpa using h⟩
  | error e =>
    rw [hr] at h
    cases e <;> simp at h

theorem setDefaultVersion_ok_elim (home w : String) (u u1 : Sdk)
    (h : setDefaultVersion home w u = .ok u1) :
    u1 = ("go", Entry.symlink (versionRoot home w)) :: eraseEntry u "go" := by
  rcases setDefaultVersion_cases home w u with ⟨_, he⟩ | ⟨_, hok⟩
  · rw [he] at h
    exact Except.noConfusion h
  · rw [hok] at h
    injection h with h
    exact h.symm

/-! ## Concrete states used by the witnesses -/

/-- Two installed versions, no current pointer. -/
def sdkBase : Sdk := [("go1.15", Entry.dir), ("go1.16", Entry.dir)]

/-- Two installed versions, pointer at go1.15. -/
def sdkLinked : Sdk :=
  [("go", Entry.symlink ("h/sdk/go1.15")), ("go1.15", Entry.dir), ("go1.16", Entry.dir)]

/-- Two installed versions, pointer at go1.16. -/
def sdkLinked2 : Sdk :=
  [("go", Entry.symlink ("h/sdk/go1.16")), ("go1.15", Entry.dir), ("go1.16", Entry.dir)]

/-! ## Claims about the current-pointer state machine -/

/-- C2: after a successful `setDefaultVersion v`, `isDefault v` holds and the
pointer's target is exactly v's install directory; a subsequent successful
`setDefaultVersion v2` with `v2 ≠ v` makes `isDefault v` false and
`isDefault v2` true; and in any state at most one version is current. -/
theorem C2_setCurrent_isCurrent (home v v2 : String) (s s1 s2 : Sdk) :
    (setDefaultVersion home v s = .ok s1 →
      isDefault home v s1 = .ok true ∧ osReadlink "go" s1 = .ok (versionRoot home v)) ∧
    (setDefaultVersion home v s = .ok s1 → setDefaultVersion home v2 s1 = .ok s2 →
      v2 ≠ v → isDefault home v s2 = .ok false ∧ isDefault home v2 s2 = .ok true) ∧
    (∀ a b, isDefault home a s = .ok true → isDefault home b s = .ok true → a = b) := by
  refine ⟨?_, ?_, ?_⟩
  · intro h
    have h1 := setDefaultVersion_ok_elim home v s s1 h
    subst h1
    have hr := osReadlink_cons_go (versionRoot home v) (eraseEntry s "go")
    refine ⟨?_, hr⟩
    rw [isDefault_of_readlink home v _ _ hr]
    simp
  · intro h h2 hne
    have h1 := setDefaultVersion_ok_elim home v s s1 h
    have h3 := setDefaultVersion_ok_elim home v2 s1 s2 h2
    subst h3
    have hr := osReadlink_cons_go (versionRoot home v2) (eraseEntry s1 "go")
    constructor
    · rw [isDefault_of_readlink home v _ _ hr]
      have hbf : (versionRoot home v == versionRoot home v2) = false := by
        refine beq_eq_false_iff_ne.mpr ?_
        intro hcontra
        exact hne (versionRoot_inj home v v2 hcontra).symm
      rw [hbf]
    · rw [isDefault_of_readlink home v2 _ _ hr]
      simp
  · intro a b ha hb
    obtain ⟨t, hra, hea⟩ := isDefault_true_elim home a s ha
    obtain ⟨u, hrb, heb⟩ := isDefault_true_elim home b s hb
    rw [hra] at hrb
    injection hrb with hrb
    exact versionRoot_inj home a b (hea.trans (hrb ▸ heb).symm)

/-- Witness for C2 at a concrete run: select go1.15, then go1.16. -/
theorem C2_setCurrent_isCurrent_witness :
    isDefault "h" "go1.15" sdkLinked = .ok true ∧
    isDefault "h" "go1.15" sdkLinked2 = .ok false ∧
    isDefault "h" "go1.16" sdkLinked2 = .ok true := by
  refine ⟨((C2_setCurrent_isCurrent "h" "go1.15" "go1.16" sdkBase sdkLinked sdkLinked2).1
      (by decide)).1, ?_, ?_⟩
  · exact ((C2_setCurrent_isCurrent "h" "go1.15" "go1.16" sdkBase sdkLinked sdkLinked2).2.1
      (by decide) (by decide) (by decide)).1
  · exact ((C2_setCurrent_isCurrent "h" "go1.15" "go1.16" sdkBase sdkLinked sdkLinked2).2.1
      (by decide) (by decide) (by decide)).2

/-- C7: `setDefaultVersion` first removes the pointer ignoring a missing
pointer (the remove step's not-exist error is not surfaced and the call
succeeds), then creates the symlink as a second operation, and it fails
exactly when that symlink creation fails (which happens exactly when the
pointer path is occupied by a real directory the discarded remove could not
clear). -/
theorem C7_setCurrent_remove_then_symlink (home v : String) (s : Sdk) :
    (lookupEntry s "go" = none →
      osRemove "go" s = .error .notExist ∧
      setDefaultVersion home v s =
        .ok (("go", Entry.symlink (versionRoot home v)) :: s)) ∧
    (∀ t, lookupEntry s "go" = some (Entry.symlink t) →
      setDefaultVersion home v s =
        .ok (("go", Entry.symlink (versionRoot home v)) :: eraseEntry s "go")) ∧
    (∀ e, setDefaultVersion home v s = .error e ↔
      (lookupEntry s "go" = some Entry.dir ∧
        osSymlink (versionRoot home v) "go" s = .error e)) := by
  refine ⟨?_, ?_, ?_⟩
  · intro hl
    refine ⟨by simp [osRemove, hl], ?_⟩
    rcases setDefaultVersion_cases home v s with ⟨hd, _⟩ | ⟨_, hok⟩
    · rw [hl] at hd
      exact Option.noConfusion hd
    · rw [hok, eraseEntry_of_lookup_none s "go" hl]
  · intro t hl
    rcases setDefaultVersion_cases home v s with ⟨hd, _⟩ | ⟨_, hok⟩
    · rw [hl] at hd
      injection hd with hd
      exact Entry.noConfusion hd
    · exact hok
  · intro e
    constructor
    · intro he
      rcases setDefaultVersion_cases home v s with ⟨hd, herr⟩ | ⟨_, hok⟩
      · rw [herr] at he
        injection he with he
        refine ⟨hd, ?_⟩
        simp [osSymlink, hd, he]
      · rw [hok] at he
        exact Except.noConfusion he
    · rintro ⟨hd, hsym⟩
      simp only [osSymlink, hd] at hsym
      injection hsym with hsym
      rcases setDefaultVersion_cases home v s with ⟨_, herr⟩ | ⟨hnd, _⟩
      · rw [herr, hsym]
      · exact absurd hd hnd

/-- Witness for C7: success with no pre-existing pointer, failure when the
pointer path is a real directory. -/
theorem C7_setCurrent_remove_then_symlink_witness :
    setDefaultVersion "h" "go1.15" sdkBase =
      .ok (("go", Entry.symlink (versionRoot "h" "go1.15")) :: sdkBase) ∧
    setDefaultVersion "h" "go1.15" [("go", Entry.dir)] = .error OsErr.exist := by
  constructor
  · exact ((C7_setCurrent_remove_then_symlink "h" "go1.15" sdkBase).1 (by decide)).2
  · exact ((C7_setCurrent_remove_then_symlink "h" "go1.15" [("go", Entry.dir)]).2.2
      OsErr.exist).mpr ⟨by decide, by decide⟩

/-- C1 (amended): `removeCmd` refuses with the guard message exactly when
`isDefault` holds of the normalized argument; a successful remove never
deletes the install directory the pointer targets; and it leaves the
pointer untouched unless the argument itself normalizes to the literal
pointer name `go`, in which case the pointer symlink itself is deleted. -/
theorem C1_remove_guard (home arg : String) (s : Sdk) :
    (isDefault home (normalizeVersion arg) s = .ok true →
      removeCmd home arg s =
        .error (.guardErr (normalizeVersion arg ++ ": can't remove default version"))) ∧
    (∀ m, removeCmd home arg s = .error (CmdErr.guardErr m) →
      isDefault home (normalizeVersion arg) s = .ok true) ∧
    (∀ s2 m n t, removeCmd home arg s = .ok (s2, m) → osReadlink "go" s = .ok t →
      t = versionRoot home n → lookupEntry s2 n = lookupEntry s n) ∧
    (∀ s2 m, removeCmd home arg s = .ok (s2, m) → ¬ normalizeVersion arg = "go" →
      osReadlink "go" s2 = osReadlink "go" s) ∧
    (∀ s2 m, removeCmd home arg s = .ok (s2, m) → normalizeVersion arg = "go" →
      lookupEntry s2 "go" = none) := by
  have hok_elim : ∀ s2 m, removeCmd home arg s = .ok (s2, m) →
      isDefault home (normalizeVersion arg) s = .ok false ∧
      s2 = eraseEntry s (normalizeVersion arg) := by
    intro s2 m h
    simp only [removeCmd] at h
    cases hd : isDefault home (normalizeVersion arg) s with
    | error e =>
      rw [hd] at h
      exact Except.noConfusion h
    | ok b =>
      cases b
      · rw [hd] at h
        injection h with h
        refine ⟨rfl, ?_⟩
        have h1 := congrArg Prod.fst h
        simpa [osRemoveAll] using h1.symm
      · rw [hd] at h
        exact Except.noConfusion h
  refine ⟨?_, ?_, ?_, ?_, ?_⟩
  · intro h
    simp only [removeCmd]
    rw [h]
  · intro m h
    simp only [removeCmd] at h
    cases hd : isDefault home (normalizeVersion arg) s with
    | error e =>
      rw [hd] at h
      injection h with h
      exact CmdErr.noConfusion h
    | ok b =>
      cases b
      · rw [hd] at h
        exact Except.noConfusion h
      · rfl
  · intro s2 m n t hok hr ht
    obtain ⟨hfalse, hs2⟩ := hok_elim s2 m hok
    rw [isDefault_of_readlink home (normalizeVersion arg) s t hr] at hfalse
    injection hfalse with hfalse
    have hne : ¬ normalizeVersion arg = n := by
      intro hcontra
      rw [hcontra, ht] at hfalse
      simp at hfalse
    have hne2 : ¬ n = normalizeVersion arg := fun hh => hne hh.symm
    rw [hs2, lookupEntry_erase, if_neg hne2]
  · intro s2 m hok hne
    obtain ⟨_, hs2⟩ := hok_elim s2 m hok
    have hne2 : ¬ ("go" : String) = normalizeVersion arg := fun hh => hne hh.symm
    rw [hs2]
    unfold osReadlink
    rw [lookupEntry_erase, if_neg hne2]
  · intro s2 m hok hgo
    obtain ⟨_, hs2⟩ := hok_elim s2 m hok
    rw [hs2, hgo, lookupEntry_erase, if_pos rfl]

/-- Counterexample to C1 as stated: with the pointer at go1.15, the
specifier `go` normalizes to the pointer's own name, `isDefault` compares
`<home>/sdk/go` against the target `<home>/sdk/go1.15` and answers false,
so the remove succeeds — and deletes the pointer symlink itself, changing
the pointer's target from go1.15's directory to absent. -/
theorem C1_remove_guard_counterexample :
    removeCmd "h" "go" [("go", Entry.symlink ("h/sdk/go1.15")), ("go1.15", Entry.dir)] =
      .ok ([("go1.15", Entry.dir)], "go: removed") ∧
    osReadlink "go" [("go", Entry.symlink ("h/sdk/go1.15")), ("go1.15", Entry.dir)] =
      .ok ("h/sdk/go1.15") ∧
    osReadlink "go" [("go1.15", Entry.dir)] = .error OsErr.notExist ∧
    ¬ osReadlink "go" ([("go1.15", Entry.dir)] : Sdk) =
        osReadlink "go" [("go", Entry.symlink ("h/sdk/go1.15")), ("go1.15", Entry.dir)] :=
  ⟨by decide, by decide, by decide, by decide⟩

/-- Witness for C1: the guard fires on the current version; removing a
non-current version leaves the pointer unchanged. -/
theorem C1_remove_guard_witness :
    removeCmd "h" "1.15" sdkLinked =
      .error (CmdErr.guardErr ("go1.15: can't remove default version")) ∧
    osReadlink "go" (eraseEntry sdkLinked "go1.16") = osReadlink "go" sdkLinked := by
  constructor
  · exact (C1_remove_guard "h" "1.15" sdkLinked).1 (by decide)
  · exact (C1_remove_guard "h" "1.16" sdkLinked).2.2.2.1 (eraseEntry sdkLinked "go1.16")
      ("go1.16: removed") (by decide) (by decide)

/-- C10: removing a version that is neither current nor installed succeeds
and reports it as removed — `os.RemoveAll` on the missing directory is a
no-op success, so the absence is never surfaced as an error. -/
theorem C10_remove_missing_dir (home arg : String) (s : Sdk)
    (hnd : isDefault home (normalizeVersion arg) s = .ok false)
    (hmiss : lookupEntry s (normalizeVersion arg) = none) :
    removeCmd home arg s = .ok (s, normalizeVersion arg ++ ": removed") := by
  simp only [removeCmd]
  rw [hnd]
  show Except.ok (osRemoveAll (normalizeVersion arg) s, normalizeVersion arg ++ ": removed") =
    Except.ok (s, normalizeVersion arg ++ ": removed")
  have hre : osRemoveAll (normalizeVersion arg) s = s := by
    simp only [osRemoveAll]
    exact eraseEntry_of_lookup_none s (normalizeVersion arg) hmiss
  rw [hre]

/-- Witness for C10: go1.14 was never installed yet `remove 1.14` reports
it removed, leaving the state unchanged. -/
theorem C10_remove_missing_dir_witness :
    removeCmd "h" "1.14" sdkLinked = .ok (sdkLinked, "go1.14: removed") :=
  C10_remove_missing_dir "h" "1.14" sdkLinked (by decide) (by decide)

/-! ## Claims about catalog filtering and specifier resolution -/

theorem isGoPrefixed_go_append (v : String) : isGoPrefixed ("go" ++ v) = true := by
  unfold isGoPrefixed
  rw [String.data_append]
  simp [List.isPrefixOf]

/-- C3: an archive entry is installable exactly when its os and arch equal
the host's (a linux/arm host being compared against the tag `armv6l`), its
kind is `archive`, and its sha256 is non-empty. -/
theorem C3_isValidArchive_iff (goos goarch : String) (v : Version) :
    isValidArchive goos goarch v = true ↔
      (v.os = goos ∧
       v.arch = (if goos == "linux" && goarch == "arm" then "armv6l" else goarch) ∧
       v.kind = "archive" ∧ v.sha256 ≠ "") := by
  simp only [isValidArchive]
  by_cases h : (goos == "linux" && goarch == "arm") = true
  · simp [h, Bool.and_eq_true, beq_iff_eq, and_assoc]
  · simp only [Bool.not_eq_true] at h
    simp [h, Bool.and_eq_true, beq_iff_eq, and_assoc]

theorem foldl_filter_push {α : Type} (p : α → Bool) (l acc : List α) :
    l.foldl (fun a x => if p x then a ++ [x] else a) acc = acc ++ l.filter p := by
  induction l generalizing acc with
  | nil => simp
  | cons x l ih =>
    by_cases h : p x
    · simp [List.foldl_cons, h, ih, List.filter_cons]
    · simp [List.foldl_cons, h, ih, List.filter_cons]

/-- The nested filtering loop of `listVersions` keeps, in the catalog's
original order, exactly the files of stable releases that pass
`isValidArchive` — no re-sorting. -/
theorem listVersionsPure_eq (goos goarch : String) (releases : List Release) :
    listVersionsPure goos goarch releases =
      releases.flatMap
        (fun r => r.versions.filter (fun v => r.stable && isValidArchive goos goarch v)) := by
  unfold listVersionsPure
  suffices h : ∀ (rels : List Release) (acc : List Version),
      rels.foldl
        (fun acc r => r.versions.foldl
          (fun acc2 v => if r.stable && isValidArchive goos goarch v then acc2 ++ [v] else acc2)
          acc)
        acc
      = acc ++ rels.flatMap
          (fun r => r.versions.filter (fun v => r.stable && isValidArchive goos goarch v)) by
    simpa using h releases []
  intro rels
  induction rels with
  | nil => intro acc; simp
  | cons r rels ih =>
    intro acc
    rw [List.foldl_cons, ih]
    simp only [foldl_filter_push, List.flatMap_cons, List.append_assoc]

theorem normalizeVersion_of_go (v : String) (h : isGoPrefixed v = true) :
    normalizeVersion v = v := by
  simp [normalizeVersion, h]

/-- C5: on a catalog whose filtered sequence is non-empty, the specifiers
`up`, `latest` and `update` all resolve to the version of the first
installable entry in the catalog's original order (the catalog version
being in canonical `go`-prefixed form, as the data model guarantees). -/
theorem C5_resolve_latest (goos goarch : String) (releases : List Release) (v : Version)
    (hhead : (releases.flatMap
        (fun r => r.versions.filter
          (fun x => r.stable && isValidArchive goos goarch x))).head? = some v)
    (hgo : isGoPrefixed v.version = true) :
    resolveSpec goos goarch releases "up" = some v.version ∧
    resolveSpec goos goarch releases "latest" = some v.version ∧
    resolveSpec goos goarch releases "update" = some v.version := by
  rw [← listVersionsPure_eq] at hhead
  have h0 : (listVersionsPure goos goarch releases).get? 0 = some v := by
    cases hl : listVersionsPure goos goarch releases with
    | nil => rw [hl] at hhead; simp at hhead
    | cons a t =>
      rw [hl] at hhead
      simp only [List.head?] at hhead
      injection hhead with hhead
      simp [List.get?, hhead]
  have hup : resolveSpec goos goarch releases "up" =
      (((listVersionsPure goos goarch releases).get? 0).map Version.version).map
        normalizeVersion := rfl
  have hlatest : resolveSpec goos goarch releases "latest" =
      (((listVersionsPure goos goarch releases).get? 0).map Version.version).map
        normalizeVersion := rfl
  have hupdate : resolveSpec goos goarch releases "update" =
      (((listVersionsPure goos goarch releases).get? 0).map Version.version).map
        normalizeVersion := rfl
  rw [hup, hlatest, hupdate, h0]
  simp [Option.map, normalizeVersion_of_go v.version hgo]

/-- Catalog with two stable linux/amd64 releases, newest first. -/
def relDemo : List Release :=
  [⟨"go1.16", true,
     [⟨"go1.16.linux-amd64.tar.gz", "linux", "amd64", "go1.16", "sha16", 120, "archive"⟩]⟩,
   ⟨"go1.15", true,
     [⟨"go1.15.linux-amd64.tar.gz", "linux", "amd64", "go1.15", "sha15", 119, "archive"⟩]⟩]

/-- Witness for C5 on a concrete two-release catalog. -/
theorem C5_resolve_latest_witness :
    resolveSpec "linux" "amd64" relDemo "up" = some "go1.16" ∧
    resolveSpec "linux" "amd64" relDemo "latest" = some "go1.16" ∧
    resolveSpec "linux" "amd64" relDemo "update" = some "go1.16" :=
  C5_resolve_latest "linux" "amd64" relDemo
    ⟨"go1.16.linux-amd64.tar.gz", "linux", "amd64", "go1.16", "sha16", 120, "archive"⟩
    (by decide) (by decide)

/-- C9: when the filtered catalog is empty, `up`/`latest`/`update`
resolution and the bootstrap version selection have no defined result —
the embedding's `none` models the unguarded `versions[0]` access being out
of bounds. -/
theorem C9_empty_catalog (goos goarch : String) (releases : List Release)
    (h : listVersionsPure goos goarch releases = []) :
    resolveSpec goos goarch releases "up" = none ∧
    resolveSpec goos goarch releases "latest" = none ∧
    resolveSpec goos goarch releases "update" = none ∧
    bootstrapVersion goos goarch releases = none := by
  have hup : resolveSpec goos goarch releases "up" =
      (((listVersionsPure goos goarch releases).get? 0).map Version.version).map
        normalizeVersion := rfl
  have hlatest : resolveSpec goos goarch releases "latest" =
      (((listVersionsPure goos goarch releases).get? 0).map Version.version).map
        normalizeVersion := rfl
  have hupdate : resolveSpec goos goarch releases "update" =
      (((listVersionsPure goos goarch releases).get? 0).map Version.version).map
        normalizeVersion := rfl
  refine ⟨?_, ?_, ?_, ?_⟩
  · rw [hup, h]; rfl
  · rw [hlatest, h]; rfl
  · rw [hupdate, h]; rfl
  · unfold bootstrapVersion; rw [h]; rfl

/-- Catalog with no installable entry for a linux/amd64 host: one unstable
release and one stable release with only a source archive. -/
def relEmpty : List Release :=
  [⟨"go1.17beta1", false,
     [⟨"go1.17beta1.linux-amd64.tar.gz", "linux", "amd64", "go1.17beta1", "sb", 5, "archive"⟩]⟩,
   ⟨"go1.15", true, [⟨"go1.15.src.tar.gz", "", "", "go1.15", "ss", 10, "source"⟩]⟩]

/-- Witness for C9 on a concrete catalog with nothing installable. -/
theorem C9_empty_catalog_witness :
    resolveSpec "linux" "amd64" relEmpty "up" = none ∧
    resolveSpec "linux" "amd64" relEmpty "latest" = none ∧
    resolveSpec "linux" "amd64" relEmpty "update" = none ∧
    bootstrapVersion "linux" "amd64" relEmpty = none :=
  C9_empty_catalog "linux" "amd64" relEmpty (by decide)

/-- C4: the `go`-prefix normalization is idempotent and always yields a
`go`-prefixed string; the identical snippet runs before remove and before
install, so `1.15` and `go1.15` name the same version in both commands. -/
theorem C4_normalize_idempotent (v home goos goarch : String) (s : Sdk)
    (releases : List Release) :
    normalizeVersion (normalizeVersion v) = normalizeVersion v ∧
    isGoPrefixed (normalizeVersion v) = true ∧
    normalizeVersion "1.15" = normalizeVersion "go1.15" ∧
    removeCmd home "1.15" s = removeCmd home "go1.15" s ∧
    resolveSpec goos goarch releases "1.15" = resolveSpec goos goarch releases "go1.15" := by
  refine ⟨?_, ?_, rfl, rfl, rfl⟩
  · by_cases h : isGoPrefixed v = true
    · simp [normalizeVersion, h]
    · simp only [Bool.not_eq_true] at h
      simp [normalizeVersion, h, isGoPrefixed_go_append]
  · by_cases h : isGoPrefixed v = true
    · simp [normalizeVersion, h]
    · simp only [Bool.not_eq_true] at h
      simp [normalizeVersion, h, isGoPrefixed_go_append]

/-! ## Claims about the profile-file writer -/

theorem scanLines_split (ys : List Char) :
    ∀ (xs acc : List Char), scanLines acc (xs ++ '\n' :: ys) =
      scanLines acc (xs ++ ['\n']) ++ scanLines [] ys := by
  intro xs
  induction xs with
  | nil => intro acc; simp [scanLines]
  | cons c xs ih =>
    intro acc
    by_cases h : c = '\n'
    · simp [scanLines, h, ih]
    · simp [scanLines, h, ih]

theorem scanLines_single (xs : List Char) (h : '\n' ∉ xs) :
    ∀ acc, scanLines acc (xs ++ ['\n']) = [dropCR (acc.reverse ++ xs)] := by
  induction xs with
  | nil => intro acc; simp [scanLines]
  | cons c xs ih =>
    intro acc
    have hc : ¬ c = '\n' := fun hh => h (hh ▸ List.mem_cons_self c xs)
    have hx : '\n' ∉ xs := fun hm => h (List.mem_cons_of_mem _ hm)
    simp [scanLines, hc, ih hx]

theorem scanLines_close (C : List Char) :
    ∀ acc, ∃ t, scanLines acc (C ++ ['\n']) = scanLines acc C ++ t ∧
      (t = [] ∨ t = [[]]) := by
  induction C with
  | nil =>
    intro acc
    by_cases h : acc.isEmpty
    · refine ⟨[[]], ?_, Or.inr rfl⟩
      have hn : acc = [] := List.isEmpty_iff.mp h
      simp [scanLines, hn, dropCR]
    · refine ⟨[], ?_, Or.inl rfl⟩
      simp [scanLines, h]
  | cons c C ih =>
    intro acc
    by_cases h : c = '\n'
    · obtain ⟨t, ht, hcase⟩ := ih []
      exact ⟨t, by simp [scanLines, h, ht], hcase⟩
    · obtain ⟨t, ht, hcase⟩ := ih (c :: acc)
      exact ⟨t, by simp [scanLines, h, ht], hcase⟩

theorem dropCR_eq_self (l : List Char) (h : l.getLast? ≠ some '\r') : dropCR l = l := by
  unfold dropCR
  cases hl : l.getLast? with
  | none => rfl
  | some c =>
    rw [hl] at h
    have hc : ¬ c = '\r' := fun hh => h (by rw [hh])
    simp [hc]

/-- Appending a single-line value after existing content adds exactly one
line equal to it to the scanner's view of the file. -/
theorem count_scanLines_append (C v : List Char) (hv : v ≠ [])
    (hn : '\n' ∉ v) (hr : v.getLast? ≠ some '\r') :
    (scanLines [] (C ++ '\n' :: (v ++ ['\n']))).count v =
      (scanLines [] C).count v + 1 := by
  rw [scanLines_split (v ++ ['\n']) C []]
  rw [List.count_append]
  rw [scanLines_single v hn []]
  obtain ⟨t, ht, hcase⟩ := scanLines_close C []
  rw [ht, List.count_append]
  have hd : dropCR (([] : List Char).reverse ++ v) = v := by
    simpa using dropCR_eq_self v hr
  rw [hd]
  have hct : t.count v = 0 := by
    rcases hcase with h1 | h1 <;> subst h1
    · simp
    · have hb : (([] : List Char) == v) = false :=
        beq_eq_false_iff_ne.mpr (fun hh => hv hh.symm)
      simp [List.count_cons, hb]
  have hcv : ([v] : List (List Char)).count v = 1 := by
    simp [List.count_cons]
  rw [hct, hcv]

theorem appendToFile_of_exists (fs : FileStore) (filename value : String)
    (h : checkStringExistsFile fs filename value = true) :
    appendToFile fs filename value = fs := by
  simp [appendToFile, h]

/-- C6: appending a profile line first scans the target file for the exact
literal line and skips the write when it is present, so appending the same
single-line value twice to a file state not yet containing it leaves
exactly one occurrence of that line. -/
theorem C6_append_idempotent (fs : FileStore) (filename value : String) :
    (checkStringExistsFile fs filename value = true → appendToFile fs filename value = fs) ∧
    (value.data ≠ [] → '\n' ∉ value.data → value.data.getLast? ≠ some '\r' →
      checkStringExistsFile fs filename value = false →
      countLineOcc (appendToFile (appendToFile fs filename value) filename value)
        filename value = 1) := by
  constructor
  · exact appendToFile_of_exists fs filename value
  · intro hv hn hr hchk
    have happ1 : appendToFile fs filename value =
        setFile fs filename
          ((readFile fs filename).getD [] ++ '\n' :: (value.data ++ ['\n'])) := by
      simp [appendToFile, hchk]
    have hread1 : readFile (appendToFile fs filename value) filename =
        some ((readFile fs filename).getD [] ++ '\n' :: (value.data ++ ['\n'])) := by
      rw [happ1]
      simp [setFile, readFile]
    have hcount : (scanLines []
        ((readFile fs filename).getD [] ++ '\n' :: (value.data ++ ['\n']))).count value.data
        = 1 := by
      cases hrf : readFile fs filename with
      | none =>
        simp only [hrf, Option.getD]
        rw [count_scanLines_append [] value.data hv hn hr]
        simp [scanLines]
      | some C =>
        have hmem : value.data ∉ scanLines [] C := by
          intro hm
          have hc : checkStringExistsFile fs filename value = true := by
            simp only [checkStringExistsFile, hrf]
            exact List.elem_iff.mpr hm
          rw [hchk] at hc
          exact Bool.noConfusion hc
        have hzero : (scanLines [] C).count value.data = 0 := List.count_eq_zero.mpr hmem
        simp only [hrf, Option.getD]
        rw [count_scanLines_append C value.data hv hn hr, hzero]
    have hchk2 : checkStringExistsFile (appendToFile fs filename value) filename value
        = true := by
      simp only [checkStringExistsFile, hread1]
      refine List.elem_iff.mpr ?_
      refine List.count_pos_iff.mp ?_
      rw [hcount]
      exact Nat.one_pos
    have happ2 := appendToFile_of_exists (appendToFile fs filename value) filename value hchk2
    rw [happ2]
    simp only [countLineOcc, hread1]
    exact hcount

/-- Witness for C6: a fresh export line appended twice to an empty store
occurs exactly once; appending a line already present is a no-op. -/
theorem C6_append_idempotent_witness :
    appendToFile [(".p", ['x', '\n'])] ".p" "x" = [(".p", ['x', '\n'])] ∧
    countLineOcc
      (appendToFile (appendToFile [] ".bash_profile" "export GOPATH=/h/go")
        ".bash_profile" "export GOPATH=/h/go")
      ".bash_profile" "export GOPATH=/h/go" = 1 :=
  ⟨(C6_append_idempotent [(".p", ['x', '\n'])] ".p" "x").1 (by decide),
   (C6_append_idempotent [] ".bash_profile" "export GOPATH=/h/go").2
     (by decide) (by decide) (by decide) (by decide)⟩

/-- C8: on a POSIX-like platform, persisting a variable fails with the
unsupported-shell error whenever the shell name is recognized as neither
bash nor zsh; a bash shell selects `~/.bash_profile` and a zsh shell
`~/.zshrc` as the profile file the export line is appended to. -/
theorem C8_persist_shell (shell home name value : String) (fs : FileStore) :
    (isShell shell "bash" = false → isShell shell "zsh" = false →
      persistEnvVar shell home name value fs =
        .error ("\"" ++ shell ++ "\" is not a supported shell") ∧
      shellConfigFile shell home =
        .error ("\"" ++ shell ++ "\" is not a supported shell")) ∧
    (isShell shell "bash" = true →
      shellConfigFile shell home = .ok (home ++ "/" ++ bashConfig) ∧
      persistEnvVar shell home name value fs =
        .ok (appendToFile fs (home ++ "/" ++ bashConfig)
          ("export " ++ strToUpper name ++ "=" ++ value))) ∧
    (isShell shell "bash" = false → isShell shell "zsh" = true →
      shellConfigFile shell home = .ok (home ++ "/" ++ zshConfig) ∧
      persistEnvVar shell home name value fs =
        .ok (appendToFile fs (home ++ "/" ++ zshConfig)
          ("export " ++ strToUpper name ++ "=" ++ value))) := by
  refine ⟨?_, ?_, ?_⟩
  · intro hb hz
    have hcfg : shellConfigFile shell home =
        .error ("\"" ++ shell ++ "\" is not a supported shell") := by
      simp [shellConfigFile, hb, hz]
    exact ⟨by simp [persistEnvVar, hcfg], hcfg⟩
  · intro hb
    have hcfg : shellConfigFile shell home = .ok (home ++ "/" ++ bashConfig) := by
      simp [shellConfigFile, hb]
    exact ⟨hcfg, by simp [persistEnvVar, hcfg]⟩
  · intro hb hz
    have hcfg : shellConfigFile shell home = .ok (home ++ "/" ++ zshConfig) := by
      simp [shellConfigFile, hb, hz]
    exact ⟨hcfg, by simp [persistEnvVar, hcfg]⟩

/-- Witness for C8: fish is refused, bash and zsh resolve to their
profile files. -/
theorem C8_persist_shell_witness :
    persistEnvVar "/bin/fish" "h" "gopath" "/h/go" [] =
      .error ("\"/bin/fish\" is not a supported shell") ∧
    shellConfigFile "/bin/bash" "h" = .ok ("h/.bash_profile") ∧
    shellConfigFile "/bin/zsh" "h" = .ok ("h/.zshrc") :=
  ⟨((C8_persist_shell "/bin/fish" "h" "gopath" "/h/go" []).1 (by decide) (by decide)).1,
   ((C8_persist_shell "/bin/bash" "h" "gopath" "/h/go" []).2.1 (by decide)).1,
   ((C8_persist_shell "/bin/zsh" "h" "gopath" "/h/go" []).2.2 (by decide) (by decide)).1⟩

end Getgo
